import Mathlib

/-!
A verification development for the bowtie diagram generator: a shallow
embedding of the description-language parser (src/lib.rs) and of the layout
engine "Brush" (src/brush.rs), followed by theorems about the embedded code.

Modelling conventions:
* Rust `&str` / `String` values are modelled as `List Char`; `str::trim`,
  `str::split_once`, `str::split` and `str::lines` are embedded below.
* Rust `f64` arithmetic is modelled by exact rational arithmetic (`ℚ`).
  Every constant of the source is a small decimal, so the embedded formulas
  are the source's formulas verbatim; `f64` division by zero (which yields
  an infinity or NaN) corresponds to `ℚ` division by zero (which yields 0),
  and theorems touching the slope computation carry the denominator
  explicitly.
* The `Renderer` trait is modelled by an emitted trace: each draw call
  appends one `DrawOp`; `render_diagram_into_bytes` is modelled by the
  ordered list of draw operations it performs (`renderOps`).
* `std::collections::HashMap` / `HashSet` have no observable iteration
  order.  A set is represented by its first-seen deduplicated element list
  (only its cardinality and membership are consumed by the source).  The
  map inside `get_barrier_frequencies` is represented by its canonical
  first-seen association list `barrierFreqAssoc`; an iteration order of the
  map is any permutation of that list (`IsEnumOf`), and the functions that
  consume the map take the enumeration as an explicit argument.
* Rust's `iter().enumerate()` is modelled by indexing over `List.range`.
-/

namespace Bowtie

/-- Rust `char::is_whitespace`: the Unicode `White_Space` code points. -/
def isRustWhitespace (c : Char) : Bool :=
  [0x9, 0xA, 0xB, 0xC, 0xD, 0x20, 0x85, 0xA0, 0x1680, 0x2000, 0x2001, 0x2002, 0x2003,
    0x2004, 0x2005, 0x2006, 0x2007, 0x2008, 0x2009, 0x200A, 0x2028, 0x2029, 0x202F,
    0x205F, 0x3000].contains c.toNat

/-- Rust `str::trim_start`. -/
def trimStart (s : List Char) : List Char :=
  s.dropWhile isRustWhitespace

/-- Rust `str::trim_end`. -/
def trimEnd (s : List Char) : List Char :=
  (s.reverse.dropWhile isRustWhitespace).reverse

/-- Rust `str::trim`: leading and trailing whitespace removed. -/
def trim (s : List Char) : List Char :=
  trimEnd (trimStart s)

/-- Rust `str::split_once(sep)`: the text before and after the first
occurrence of `sep`, or `none` when `sep` does not occur. -/
def splitOnce (sep : Char) : List Char → Option (List Char × List Char)
  | [] => none
  | c :: cs =>
    if c = sep then some ([], cs)
    else match splitOnce sep cs with
      | none => none
      | some (a, b) => some (c :: a, b)

/-- Rust `str::split(sep)` for a `char` pattern: always at least one piece;
an empty input yields one empty piece. -/
def splitChar (sep : Char) : List Char → List (List Char)
  | [] => [[]]
  | c :: cs =>
    if c = sep then [] :: splitChar sep cs
    else match splitChar sep cs with
      | [] => [[c]]
      | a :: rest => (c :: a) :: rest

/-- Pieces of `str::split_inclusive` at the newline character: each piece
keeps its terminating newline; the final piece may lack one; an empty input
has no piece. -/
def splitInclusiveNL : List Char → List (List Char)
  | [] => []
  | c :: cs =>
    if c = '\n' then ['\n'] :: splitInclusiveNL cs
    else match splitInclusiveNL cs with
      | [] => [[c]]
      | a :: rest => (c :: a) :: rest

/-- The per-line trimming done by Rust `str::lines`: strip one trailing
newline, and when one was stripped also one carriage return before it. -/
def lineStripNL (l : List Char) : List Char :=
  match l.getLast? with
  | some c =>
    if c = '\n' then
      let l' := l.dropLast
      match l'.getLast? with
      | some c' => if c' = '\r' then l'.dropLast else l'
      | none => l'
    else l
  | none => l

/-- Rust `str::lines`. -/
def rustLines (s : List Char) : List (List Char) :=
  (splitInclusiveNL s).map lineStripNL

/-- src/lib.rs `enum ComponentKind`. -/
inductive ComponentKind where
  | Cause
  | Consequence
deriving DecidableEq, Repr

/-- src/lib.rs `struct Component`. -/
structure Component where
  name : List Char
  barriers : List (List Char)
  kind : ComponentKind
deriving DecidableEq, Repr

/-- src/lib.rs `struct Diagram`; `Default` gives empty strings and no
components. -/
structure Diagram where
  title : List Char
  event : List Char
  components : List Component
deriving DecidableEq, Repr

/-- The `"barrier"` arm of `parse_diagram`'s match: split the value at the
first colon, trim the barrier name, split the target list at commas, and
push the barrier name onto every component whose name equals a trimmed
target. -/
def applyBarrierLine (d : Diagram) (value : List Char) : Diagram :=
  match splitOnce ':' value with
  | none => d
  | some (bn, compsName) =>
    let barrier_name := trim bn
    let component_names := splitChar ',' (trim compsName)
    { d with
      components := d.components.map fun c =>
        if component_names.any fun nm => c.name == trim nm then
          { c with barriers := c.barriers ++ [barrier_name] }
        else c }

/-- One iteration of the line loop of src/lib.rs `parse_diagram`: split the
line at the first space into command and value, trim the value, and apply
the command's arm (unknown commands and lines without a space are no-ops). -/
def parseLine (d : Diagram) (line : List Char) : Diagram :=
  match splitOnce ' ' line with
  | none => d
  | some (command, rawValue) =>
    let value := trim rawValue
    if command = ("title".toList) then
      { d with title := value }
    else if command = ("cause".toList) then
      if d.components.any fun c => c.name == value && c.kind == ComponentKind.Cause then d
      else { d with components := d.components ++ [⟨value, [], ComponentKind.Cause⟩] }
    else if command = ("consequence".toList) then
      if d.components.any fun c => c.name == value && c.kind == ComponentKind.Consequence then d
      else { d with components := d.components ++ [⟨value, [], ComponentKind.Consequence⟩] }
    else if command = ("event".toList) then
      { d with event := value }
    else if command = ("barrier".toList) then
      applyBarrierLine d value
    else d

/-- src/lib.rs `parse_diagram`. -/
def parse_diagram (input : List Char) : Diagram :=
  (rustLines input).foldl parseLine ⟨[], [], []⟩

/-- The number of components of `d` with the given kind and name. -/
def componentCount (d : Diagram) (kind : ComponentKind) (name : List Char) : ℕ :=
  d.components.countP fun c => c.name == name && c.kind == kind

/-! ## The layout engine (src/brush.rs) -/

def COMPONENT_HEIGHT : ℚ := 50
def BARRIER_WIDTH : ℚ := 25
def BARRIER_PADDING_RIGHT : ℚ := 10
def COMPONENT_MARGIN_BOTTOM : ℚ := 20
def COMPONENT_PADDING_X : ℚ := 10
def BARRIER_MARGIN_RIGHT : ℚ := 50
def BARRIERS_CONTAINER_HORIZONTAL_PADDING : ℚ := 150

/-- src/renderer/mod.rs `struct Vector2`. -/
structure Vector2 where
  x : ℚ
  y : ℚ
deriving DecidableEq, Repr

/-- src/renderer/mod.rs `struct Rectangle`. -/
structure Rectangle where
  centre : Vector2
  width : ℚ
  height : ℚ
deriving DecidableEq, Repr

/-- src/renderer/mod.rs `enum Alignment`. -/
inductive Alignment where
  | Center
  | Left
  | Right
deriving DecidableEq, Repr

/-- One call against the `Renderer` trait: the layout engine's outward
behaviour is the ordered sequence of these operations. -/
inductive DrawOp where
  | setup (width height : ℚ)
  | drawLine (p q : Vector2)
  | drawCircle (radius : ℚ) (centre : Vector2)
  | drawText (text : List Char) (containment : Rectangle) (alignment : Alignment)
  | drawRectangle (rectangle : Rectangle)
  | drawTextWithRectangle (text : List Char) (rectangle : Rectangle) (alignment : Alignment)
deriving DecidableEq, Repr

/-- src/brush.rs `struct Context`. -/
structure Context where
  canvas_height : ℚ
  canvas_width : ℚ
  causes_container_height : ℚ
  consequences_container_height : ℚ
  max_component_box_width : ℚ
  circle_left_point : Option Vector2
  circle_right_point : Option Vector2
deriving DecidableEq, Repr

/-- src/brush.rs `text_width`: character count times a fixed per-character
constant. -/
def text_width (text : List Char) : ℚ :=
  (text.length : ℚ) * 15

/-- src/brush.rs `filter_components`. -/
def filter_components (d : Diagram) (kind : ComponentKind) : List Component :=
  d.components.filter fun c => c.kind == kind

/-- Fold step deduplicating while keeping first-seen order. -/
def insertIfAbsent (acc : List (List Char)) (b : List Char) : List (List Char) :=
  if acc.contains b then acc else acc ++ [b]

/-- src/brush.rs `filter_barriers`: the `HashSet` of barrier names referenced
by the given components, represented by its first-seen deduplicated list
(the source consumes only its cardinality and membership). -/
def filter_barriers (components : List Component) : List (List Char) :=
  ((components.map Component.barriers).flatten).foldl insertIfAbsent []

/-- src/brush.rs `calculate_event_circle_radius`. -/
def calculate_event_circle_radius (event : List Char) : ℚ :=
  text_width event / 2

/-- src/brush.rs `calculate_components_container_height_by_count`; the
`(count − 1)` term is not clamped and goes negative at `count = 0`. -/
def calculate_components_container_height_by_count (components_count : ℚ) : ℚ :=
  components_count * COMPONENT_HEIGHT + (components_count - 1) * COMPONENT_MARGIN_BOTTOM

/-- src/brush.rs `calculate_components_container_height`. -/
def calculate_components_container_height (components : List Component) : ℚ :=
  calculate_components_container_height_by_count (components.length : ℚ)

/-- src/brush.rs `calculate_barriers_height`: the height formula applied to
the number of distinct barrier names of the components (the source rebuilds
the `HashSet` inline; `filter_barriers` computes the same set). -/
def calculate_barriers_height (components : List Component) : ℚ :=
  calculate_components_container_height_by_count ((filter_barriers components).length : ℚ)

/-- src/brush.rs `calculate_barriers_container_width`. -/
def calculate_barriers_container_width (barriers : List (List Char)) : ℚ :=
  (barriers.length : ℚ) * BARRIER_WIDTH + ((barriers.length : ℚ) - 1) * BARRIER_MARGIN_RIGHT
    + BARRIERS_CONTAINER_HORIZONTAL_PADDING * 2

/-- src/brush.rs `calculate_canvas_width`. -/
def calculate_canvas_width (d : Diagram)
    (max_component_box_width max_barriers_container_width : ℚ) : ℚ :=
  calculate_event_circle_radius d.event
    + max_component_box_width * 2
    + max_barriers_container_width * 2

/-- src/brush.rs `calculate_max_barriers_container_width`. -/
def calculate_max_barriers_container_width (a b : List (List Char)) : ℚ :=
  max (calculate_barriers_container_width a) (calculate_barriers_container_width b)

/-- The width of one component's label, after the source's `as u32` cast of
`text_width` (the cast saturates; `text_width` is an exact integer). -/
def component_width_u32 (c : Component) : ℕ :=
  min (c.name.length * 15) 4294967295

/-- src/brush.rs `calculate_max_component_box_width`: `unwrap_or(0.0)` on an
empty lane. -/
def calculate_max_component_box_width (components : List Component) : ℚ :=
  (((components.map component_width_u32).foldr max 0 : ℕ) : ℚ)

/-- src/brush.rs `calculate_max_components_box_width`. -/
def calculate_max_components_box_width (a b : List Component) : ℚ :=
  max (calculate_max_component_box_width a) (calculate_max_component_box_width b)

/-- src/brush.rs `get_component_x_center`. -/
def get_component_x_center (kind : ComponentKind) (ctx : Context) : ℚ :=
  match kind with
  | ComponentKind.Cause => ctx.max_component_box_width / 2 + COMPONENT_PADDING_X
  | ComponentKind.Consequence =>
      ctx.canvas_width - ctx.max_component_box_width / 2 - COMPONENT_PADDING_X

/-- src/brush.rs `get_component_y_center` (the index is an `f64` there: it is
also called with `-1.0` and with `components.len() + i`). -/
def get_component_y_center (i : ℚ) (kind : ComponentKind) (ctx : Context) : ℚ :=
  let container_height :=
    match kind with
    | ComponentKind.Cause => ctx.causes_container_height
    | ComponentKind.Consequence => ctx.consequences_container_height
  let components_container_top := ctx.canvas_height / 2 - container_height / 2
  let y_relative := i * COMPONENT_HEIGHT + i * COMPONENT_MARGIN_BOTTOM
  components_container_top + y_relative + COMPONENT_HEIGHT / 2

/-- src/brush.rs `get_barrier_x_center`. -/
def get_barrier_x_center (i : ℚ) (kind : ComponentKind) (ctx : Context) : ℚ :=
  let component_x := get_component_x_center kind ctx
  match kind with
  | ComponentKind.Cause =>
      component_x + ctx.max_component_box_width / 2
        + i * (BARRIER_WIDTH + BARRIER_PADDING_RIGHT)
        + (i + 1) * BARRIER_PADDING_RIGHT
        + BARRIER_WIDTH / 2
  | ComponentKind.Consequence =>
      component_x - ctx.max_component_box_width / 2
        - i * BARRIER_WIDTH
        - (i + 1) * BARRIER_PADDING_RIGHT
        - BARRIER_WIDTH / 2

/-- src/brush.rs `get_slope_point`: the y-value on the line through `a` and
`b` at abscissa `x`.  In `ℚ` a zero `run` makes the division yield 0 (in
`f64` it yields an infinity or NaN); the computation is unguarded in the
source as it is here. -/
def get_slope_point (a b : Vector2) (x : ℚ) : Vector2 :=
  let run := b.x - a.x
  let rise := b.y - a.y
  let slope := rise / run
  let delta_x := x - a.x
  ⟨x, a.y + slope * delta_x⟩

/-- src/brush.rs `get_barrier_label_alignment`. -/
def get_barrier_label_alignment (kind : ComponentKind) : Alignment :=
  match kind with
  | ComponentKind.Cause => Alignment.Left
  | ComponentKind.Consequence => Alignment.Right

/-- src/brush.rs `get_barrier_label`. -/
def get_barrier_label (kind : ComponentKind) (label_id barrier : List Char) : List Char :=
  match kind with
  | ComponentKind.Cause => '[' :: label_id ++ ']' :: ' ' :: barrier
  | ComponentKind.Consequence => barrier ++ ' ' :: '[' :: label_id ++ [']']

/-- Fold step of the frequency map: bump the count of `b`, inserting it with
count 1 on first sight.  The resulting association list is the map's
contents in canonical first-seen key order. -/
def bumpFreq (acc : List (List Char × ℕ)) (b : List Char) : List (List Char × ℕ) :=
  if acc.any fun p => p.1 == b then
    acc.map fun p => if p.1 == b then (p.1, p.2 + 1) else p
  else acc ++ [(b, 1)]

/-- The contents of the `HashMap` built by src/brush.rs
`get_barrier_frequencies` before it is collected into a vector: one entry
per distinct barrier name with its occurrence count, in first-seen order. -/
def barrierFreqAssoc (components : List Component) : List (List Char × ℕ) :=
  ((components.map Component.barriers).flatten).foldl bumpFreq []

/-- `order` is a possible iteration order of that `HashMap`: the same
entries in some order.  Rust's `std` map iterates in an unspecified,
per-process randomized order, so any permutation must be admitted. -/
def IsEnumOf (components : List Component) (order : List (List Char × ℕ)) : Prop :=
  order.Perm (barrierFreqAssoc components)

/-- Stable insertion into a list sorted by descending count: the element
passes entries with strictly greater count and stops before the first entry
with a smaller-or-equal count. -/
def insertByFreqDesc (x : List Char × ℕ) : List (List Char × ℕ) → List (List Char × ℕ)
  | [] => [x]
  | y :: ys => if y.2 ≤ x.2 then x :: y :: ys else y :: insertByFreqDesc x ys

/-- Stable sort by descending count (insertion sort; Rust's
`sort_by(|a, b| a.1.cmp(&b.1).reverse())` is also a stable sort by
descending count, and all stable sorts under one key agree). -/
def sortByFreqDesc (l : List (List Char × ℕ)) : List (List Char × ℕ) :=
  l.foldr insertByFreqDesc []

/-- src/brush.rs `get_barrier_frequencies`, parameterized by the map's
iteration order: collect the map's entries in that order into a vector and
stably sort them by descending count. -/
def get_barrier_frequencies (order : List (List Char × ℕ)) : List (List Char × ℕ) :=
  sortByFreqDesc order

/-- A placeholder component for out-of-range indexing (never reached on the
index ranges used below). -/
def cdefault : Component :=
  ⟨[], [], ComponentKind.Cause⟩

/-- src/brush.rs `Brush::get_component_edge`: the box edge facing the
circle. -/
def get_component_edge (kind : ComponentKind) (i : ℕ) (ctx : Context) : Vector2 :=
  let y := get_component_y_center (i : ℚ) kind ctx
  let x_center := get_component_x_center kind ctx
  let x_edge :=
    match kind with
    | ComponentKind.Cause => x_center + ctx.max_component_box_width / 2
    | ComponentKind.Consequence => x_center - ctx.max_component_box_width / 2
  ⟨x_edge, y⟩

/-- src/brush.rs `Brush::get_component_circle_point` (the `unwrap` is sound
at every call site because `render_event_circle` runs first; `getD` stands
for it). -/
def get_component_circle_point (kind : ComponentKind) (ctx : Context) : Vector2 :=
  match kind with
  | ComponentKind.Cause => ctx.circle_left_point.getD ⟨0, 0⟩
  | ComponentKind.Consequence => ctx.circle_right_point.getD ⟨0, 0⟩

/-- src/brush.rs `setup_canvas`: the emitted `setup` call and the fresh
`Context`. -/
def setup_canvas (causes consequences : List Component) (d : Diagram)
    (max_component_box_width max_barriers_container_width : ℚ) :
    List DrawOp × Context :=
  let causes_container_height := calculate_components_container_height causes
  let consequences_container_height := calculate_components_container_height consequences
  let max_barriers_height :=
    calculate_barriers_height causes + calculate_barriers_height consequences
  let max_container_height :=
    max causes_container_height consequences_container_height + max_barriers_height
  let canvas_height := max_container_height * (11 / 10) + 150
  let canvas_width :=
    calculate_canvas_width d max_component_box_width max_barriers_container_width
  let ctx : Context :=
    ⟨canvas_height, canvas_width, causes_container_height,
      consequences_container_height, max_component_box_width, none, none⟩
  ([DrawOp.setup canvas_width canvas_height], ctx)

/-- src/brush.rs `Brush::render_components`: one text-in-box per component. -/
def render_components (components : List Component) (kind : ComponentKind)
    (ctx : Context) : List DrawOp :=
  (List.range components.length).map fun i =>
    DrawOp.drawTextWithRectangle (components.getD i cdefault).name
      ⟨⟨get_component_x_center kind ctx, get_component_y_center (i : ℚ) kind ctx⟩,
        ctx.max_component_box_width, COMPONENT_HEIGHT⟩
      Alignment.Center

/-- src/brush.rs `Brush::render_event_circle`: draws the circle and label and
records the circle's left and right boundary points in the context. -/
def render_event_circle (d : Diagram) (ctx : Context) : List DrawOp × Context :=
  let radius := calculate_event_circle_radius d.event
  let centre : Vector2 := ⟨ctx.canvas_width / 2, ctx.canvas_height / 2⟩
  ([DrawOp.drawCircle radius centre,
    DrawOp.drawText d.event ⟨centre, radius, radius⟩ Alignment.Center],
   { ctx with
      circle_left_point := some ⟨ctx.canvas_width / 2 - radius, ctx.canvas_height / 2⟩,
      circle_right_point := some ⟨ctx.canvas_width / 2 + radius, ctx.canvas_height / 2⟩ })

/-- src/brush.rs `Brush::render_barrier_lines`: one connector per component,
from its inner box edge to the lane's circle point. -/
def render_barrier_lines (components : List Component) (kind : ComponentKind)
    (ctx : Context) : List DrawOp :=
  (List.range components.length).map fun i =>
    DrawOp.drawLine (get_component_edge kind i ctx) (get_component_circle_point kind ctx)

/-- The body of the slot loop of src/brush.rs `Brush::render_barriers` for
slot `i`: the numeric label above the rows, the bracketed name label below
the rows, then one interception rectangle per component referencing the
slot's barrier, centred on `get_slope_point` of its connector. -/
def barrier_slot_ops (components : List Component) (circle_point : Vector2)
    (kind : ComponentKind) (id_offset : ℕ) (ctx : Context)
    (names : List (List Char)) (i : ℕ) : List DrawOp :=
  let barrier := names.getD i []
  let x := get_barrier_x_center (i : ℚ) kind ctx
  let label_id := (Nat.repr (id_offset + i + 1)).toList
  [DrawOp.drawText label_id
      ⟨⟨x, get_component_y_center (-1) kind ctx⟩, BARRIER_WIDTH, COMPONENT_HEIGHT⟩
      Alignment.Center,
   DrawOp.drawText (get_barrier_label kind label_id barrier)
      ⟨⟨get_component_x_center kind ctx,
          get_component_y_center ((components.length + i : ℕ) : ℚ) kind ctx⟩,
        ctx.max_component_box_width, COMPONENT_HEIGHT⟩
      (get_barrier_label_alignment kind)]
  ++ ((List.range components.length).filter fun j =>
        (components.getD j cdefault).barriers.contains barrier).map fun j =>
      DrawOp.drawRectangle
        ⟨get_slope_point (get_component_edge kind j ctx) circle_point x,
          BARRIER_WIDTH, COMPONENT_HEIGHT⟩

/-- src/brush.rs `Brush::render_barriers`, parameterized by the frequency
map's iteration order. -/
def render_barriers (components : List Component) (circle_point : Vector2)
    (kind : ComponentKind) (id_offset : ℕ) (ctx : Context)
    (order : List (List Char × ℕ)) : List DrawOp :=
  let names := (get_barrier_frequencies order).map Prod.fst
  ((List.range names.length).map
    (barrier_slot_ops components circle_point kind id_offset ctx names)).flatten

/-- The `Context` as `Brush::render_diagram_into_bytes` builds it before
drawing. -/
def setupContext (d : Diagram) : Context :=
  (setup_canvas (filter_components d ComponentKind.Cause)
    (filter_components d ComponentKind.Consequence) d
    (calculate_max_components_box_width (filter_components d ComponentKind.Cause)
      (filter_components d ComponentKind.Consequence))
    (calculate_max_barriers_container_width
      (filter_barriers (filter_components d ComponentKind.Cause))
      (filter_barriers (filter_components d ComponentKind.Consequence)))).2

/-- The `Context` after `render_event_circle` has recorded the circle
points. -/
def renderContext (d : Diagram) : Context :=
  (render_event_circle d (setupContext d)).2

/-- src/brush.rs `Brush::render_diagram_into_bytes` followed by
`Brush::render`: the full ordered draw-operation trace, parameterized by the
two lanes' frequency-map iteration orders.  The sequence is: `setup`, the
canvas border, the cause boxes, the consequence boxes, the event circle and
its label, the cause connectors, the consequence connectors, the cause-lane
barriers (id offset 0), the consequence-lane barriers (id offset
`causes.len()`). -/
def renderOps (d : Diagram) (causeOrder consOrder : List (List Char × ℕ)) : List DrawOp :=
  let causes := filter_components d ComponentKind.Cause
  let consequences := filter_components d ComponentKind.Consequence
  let setupRes := setup_canvas causes consequences d
    (calculate_max_components_box_width causes consequences)
    (calculate_max_barriers_container_width (filter_barriers causes)
      (filter_barriers consequences))
  let ctx0 := setupRes.2
  let circleRes := render_event_circle d ctx0
  let ctx1 := circleRes.2
  setupRes.1
    ++ [DrawOp.drawRectangle
          ⟨⟨ctx0.canvas_width / 2, ctx0.canvas_height / 2⟩,
            ctx0.canvas_width, ctx0.canvas_height⟩]
    ++ render_components causes ComponentKind.Cause ctx0
    ++ render_components consequences ComponentKind.Consequence ctx0
    ++ circleRes.1
    ++ render_barrier_lines causes ComponentKind.Cause ctx1
    ++ render_barrier_lines consequences ComponentKind.Consequence ctx1
    ++ render_barriers causes (get_component_circle_point ComponentKind.Cause ctx1)
        ComponentKind.Cause 0 ctx1 causeOrder
    ++ render_barriers consequences (get_component_circle_point ComponentKind.Consequence ctx1)
        ComponentKind.Consequence causes.length ctx1 consOrder

/-! ## Observers and concrete inputs used by the theorems -/

/-- How many `drawText` operations of the trace carry exactly the text
`s`. -/
def countTextOps (s : List Char) (ops : List DrawOp) : ℕ :=
  (ops.filter fun op =>
    match op with
    | DrawOp.drawText t _ _ => decide (t = s)
    | _ => false).length

/-- The canonical iteration order of a lane's frequency map (one valid
enumeration among all permutations admitted by `IsEnumOf`). -/
def laneAssoc (d : Diagram) (kind : ComponentKind) : List (List Char × ℕ) :=
  barrierFreqAssoc (filter_components d kind)

/-- Sorted by descending count: every entry's count is greater than or
equal to every later entry's count. -/
def SortedFreqDesc (l : List (List Char × ℕ)) : Prop :=
  l.Pairwise fun a b => b.2 ≤ a.2

/-- A `cause` line of the description language. -/
def causeLine (v : List Char) : List Char :=
  ("cause ".toList) ++ v

/-- A `consequence` line of the description language. -/
def consequenceLine (v : List Char) : List Char :=
  ("consequence ".toList) ++ v

/-- The (kind, name) key of a component: the fields no parser command ever
mutates. -/
def keyOf (c : Component) : ComponentKind × List Char :=
  (c.kind, c.name)

/-- Input with one cause referencing two barriers and one consequence
referencing one: the cause lane has 2 distinct barriers but only 1
component. -/
def inputNumbering : List Char :=
  ("event E\ncause C\nbarrier B1: C\nbarrier B2: C\nconsequence Q\nbarrier D: Q").toList

def diagramNumbering : Diagram :=
  parse_diagram inputNumbering

def opsNumbering : List DrawOp :=
  renderOps diagramNumbering (laneAssoc diagramNumbering ComponentKind.Cause)
    (laneAssoc diagramNumbering ComponentKind.Consequence)

/-- Two cause components, each referencing its own barrier: the two
barriers tie at frequency 1. -/
def compsTie : List Component :=
  [⟨("c1".toList), [("A".toList)], ComponentKind.Cause⟩,
   ⟨("c2".toList), [("B".toList)], ComponentKind.Cause⟩]

def diagramTie : Diagram :=
  ⟨[], ("E".toList), compsTie⟩

/-- The tie-lane's frequency map enumerated with A first. -/
def orderAB : List (List Char × ℕ) :=
  [(("A".toList), 1), (("B".toList), 1)]

/-- The same map enumerated with B first (a permutation of the same
entries, hence an equally possible `HashMap` iteration order). -/
def orderBA : List (List Char × ℕ) :=
  [(("B".toList), 1), (("A".toList), 1)]

/-- Two causes and zero consequences. -/
def diagramTwoCauses : Diagram :=
  parse_diagram (("event E\ncause A\ncause B").toList)

/-- An event label of 84 characters makes the cause-lane connector
perfectly vertical: the circle's left point x equals the cause box's inner
edge x (both 25). -/
def inputVertical : List Char :=
  (("event " ++ String.mk (List.replicate 84 'x') ++ "\ncause X\nbarrier B: X").toList)

def diagramVertical : Diagram :=
  parse_diagram inputVertical

/-- A small diagram with one cause, one barrier on it and one consequence,
whose connectors are not vertical; used to instantiate the hypotheses of
the general theorems at a concrete input. -/
def diagramSmall : Diagram :=
  parse_diagram (("title T\nevent E\ncause X\nconsequence Y\nbarrier B: X").toList)

/-- The interception rectangle `render_barriers` draws for barrier B on the
cause lane of `diagramSmall`. -/
def rectSmall : Rectangle :=
  ⟨get_slope_point (get_component_edge ComponentKind.Cause 0 (renderContext diagramSmall))
      (get_component_circle_point ComponentKind.Cause (renderContext diagramSmall))
      (get_barrier_x_center 0 ComponentKind.Cause (renderContext diagramSmall)),
    BARRIER_WIDTH, COMPONENT_HEIGHT⟩

/-- `diagramSmall` with a longer event label, a longer cause name and one
more barrier on the consequence lane: every monotonicity knob increased. -/
def diagramLarger : Diagram :=
  parse_diagram
    (("title T\nevent EEEE\ncause XXXXX\nconsequence Y\nbarrier B: X, XXXXX\nbarrier G: Y").toList)

/-- Two causes where barrier A occurs twice and barrier B once: the two
lane frequencies are distinct, so no tie exists. -/
def compsFreq : List Component :=
  [⟨("c1".toList), [("A".toList)], ComponentKind.Cause⟩,
   ⟨("c2".toList), [("A".toList), ("B".toList)], ComponentKind.Cause⟩]

def diagramFreq : Diagram :=
  ⟨[], ("E".toList), compsFreq⟩

/-- The no-tie frequency map enumerated with A first. -/
def orderFreqA : List (List Char × ℕ) :=
  [(("A".toList), 2), (("B".toList), 1)]

/-- The no-tie frequency map enumerated with B first. -/
def orderFreqB : List (List Char × ℕ) :=
  [(("B".toList), 1), (("A".toList), 2)]

instance decIsEnumOf (components : List Component) (order : List (List Char × ℕ)) :
    Decidable (IsEnumOf components order) :=
  List.decidablePerm order (barrierFreqAssoc components)

/-! ## Theorems -/

set_option maxRecDepth 8000

/-- C1: the cause lane is numbered 1..C in slot order, but the consequence
lane's numbering continues from the number of cause *components*
(`self.causes.len()`), not from the number of distinct cause-lane barriers:
on a diagram whose single cause references two barriers and whose single
consequence references one, the trace draws the numeric label "2" twice
(once per lane) and never draws "3", although the cause lane has 2 distinct
barriers, so the claimed numbering would give the consequence barrier the
label "3". -/
theorem C1_consequence_numbering_diverges :
    countTextOps ("2".toList) opsNumbering = 2
    ∧ countTextOps ("3".toList) opsNumbering = 0
    ∧ (filter_barriers (filter_components diagramNumbering ComponentKind.Cause)).length = 2
    ∧ (filter_barriers (filter_components diagramNumbering ComponentKind.Consequence)).length = 1 :=
  of_decide_eq_true (by with_unfolding_all rfl)

/-- C2, counterexample: with two equal-frequency cause barriers, two
iteration orders of the same frequency map — both orders the randomized
`std` `HashMap` can produce for the same `(Diagram, Renderer)` input — make
the render pass emit different draw-operation sequences, so two runs on
identical inputs need not produce identical output. -/
theorem C2_counterexample :
    IsEnumOf compsTie orderAB ∧ IsEnumOf compsTie orderBA
    ∧ renderOps diagramTie orderAB [] ≠ renderOps diagramTie orderBA [] :=
  of_decide_eq_true (by with_unfolding_all rfl)

/-- C3, counterexample: barriers A and B tie at frequency 1 and A is seen
first, yet under the (equally possible) map iteration order that lists B
first the rendered slot order is [B, A], not the first-seen order [A, B]:
the tie-break is the unordered map's incidental iteration order. -/
theorem C3_counterexample :
    IsEnumOf compsTie orderBA
    ∧ (get_barrier_frequencies orderBA).map Prod.fst = [("B".toList), ("A".toList)]
    ∧ filter_barriers compsTie = [("A".toList), ("B".toList)]
    ∧ (barrierFreqAssoc compsTie).map (fun p => p.2) = [1, 1] :=
  of_decide_eq_true (by with_unfolding_all rfl)

/-- C4, counterexample: the `(count − 1)` term is not clamped: at count 0
the container-height formula yields −20, and on a two-causes/zero-
consequences diagram the empty lane's container height is −20 and the
canvas height is 238 = (max 120 (−20) + (−20) + (−20))·1.1 + 150 — the
empty lane's negative barrier-height term enters the sum (clamping to zero
would give 282). -/
theorem C4_counterexample :
    calculate_components_container_height_by_count 0 = -20
    ∧ (setupContext diagramTwoCauses).consequences_container_height = -20
    ∧ (setupContext diagramTwoCauses).canvas_height = 238 :=
  of_decide_eq_true (by with_unfolding_all rfl)

/-- C5, counterexample: no barrier slot can sit at the x coordinate of a
connector's component-edge endpoint (hence none can sit at a vertical
connector's shared x): a cause slot is offset +(22.5 + 45·i) and a
consequence slot −(22.5 + 45·i) from the box edge, for any context and any
slot index, so the claim's precondition is unsatisfiable. -/
theorem C5_counterexample :
    ¬ ∃ (ctx : Context) (kind : ComponentKind) (i j : ℕ),
        (get_component_circle_point kind ctx).x = (get_component_edge kind j ctx).x
        ∧ get_barrier_x_center (i : ℚ) kind ctx = (get_component_edge kind j ctx).x := by
  rintro ⟨ctx, kind, i, j, hv, hs⟩
  have hi : (0 : ℚ) ≤ (i : ℚ) := Nat.cast_nonneg i
  cases kind with
  | Cause =>
    simp only [get_barrier_x_center, get_component_edge, get_component_x_center,
      BARRIER_WIDTH, BARRIER_PADDING_RIGHT] at hs
    linarith
  | Consequence =>
    simp only [get_barrier_x_center, get_component_edge, get_component_x_center,
      BARRIER_WIDTH, BARRIER_PADDING_RIGHT] at hs
    linarith

/-- C5, amended: a perfectly vertical connector alone (no condition on slot
positions) makes `run = 0` in the unguarded slope computation: with an
84-character event label and one cause `X` carrying barrier B, the circle's
left point x equals the cause box edge x, and the trace still contains the
interception rectangle computed by `get_slope_point` with that zero
denominator. -/
theorem C5_vertical_run_zero :
    (get_component_circle_point ComponentKind.Cause (renderContext diagramVertical)).x
      - (get_component_edge ComponentKind.Cause 0 (renderContext diagramVertical)).x = 0
    ∧ DrawOp.drawRectangle
        ⟨get_slope_point (get_component_edge ComponentKind.Cause 0 (renderContext diagramVertical))
            (get_component_circle_point ComponentKind.Cause (renderContext diagramVertical))
            (get_barrier_x_center 0 ComponentKind.Cause (renderContext diagramVertical)),
          BARRIER_WIDTH, COMPONENT_HEIGHT⟩
        ∈ renderOps diagramVertical (laneAssoc diagramVertical ComponentKind.Cause)
            (laneAssoc diagramVertical ComponentKind.Consequence) :=
  of_decide_eq_true (by with_unfolding_all rfl)

/-- C4, amended: rendering a diagram whose consequence lane is empty does
not fail (the embedding is total arithmetic), but the `(count − 1)` terms
are not clamped: the empty lane's container height is −20, the
max-of-container-heights picks the non-empty lane's height, and the canvas
height still includes the empty lane's −20 barrier-height term in its
sum. -/
theorem C4_zero_consequence_lane (d : Diagram)
    (hc : filter_components d ComponentKind.Cause ≠ [])
    (hs : filter_components d ComponentKind.Consequence = []) :
    (setupContext d).consequences_container_height = -20
    ∧ max (setupContext d).causes_container_height (setupContext d).consequences_container_height
        = (setupContext d).causes_container_height
    ∧ (setupContext d).canvas_height =
        ((setupContext d).causes_container_height
          + calculate_barriers_height (filter_components d ComponentKind.Cause) + (-20)) * (11 / 10)
          + 150 := by
  have hsh : calculate_components_container_height (filter_components d ComponentKind.Consequence)
      = -20 := by
    rw [hs]
    norm_num [calculate_components_container_height,
      calculate_components_container_height_by_count, COMPONENT_HEIGHT, COMPONENT_MARGIN_BOTTOM]
  have hbs : calculate_barriers_height (filter_components d ComponentKind.Consequence) = -20 := by
    rw [hs]
    norm_num [calculate_barriers_height, filter_barriers,
      calculate_components_container_height_by_count, COMPONENT_HEIGHT, COMPONENT_MARGIN_BOTTOM]
  have hn : (0 : ℚ) ≤ ((filter_components d ComponentKind.Cause).length : ℚ) :=
    Nat.cast_nonneg _
  have hmax : max (calculate_components_container_height (filter_components d ComponentKind.Cause))
      (calculate_components_container_height (filter_components d ComponentKind.Consequence))
      = calculate_components_container_height (filter_components d ComponentKind.Cause) := by
    rw [hsh]
    refine max_eq_left ?_
    simp only [calculate_components_container_height,
      calculate_components_container_height_by_count, COMPONENT_HEIGHT, COMPONENT_MARGIN_BOTTOM]
    nlinarith
  refine ⟨?_, ?_, ?_⟩
  · simp only [setupContext, setup_canvas]
    exact hsh
  · simp only [setupContext, setup_canvas]
    exact hmax
  · simp only [setupContext, setup_canvas]
    rw [hmax, hbs]
    ring

/-- Witness for C4: the two-causes, zero-consequences diagram. -/
theorem C4_zero_consequence_lane_witness :
    (setupContext diagramTwoCauses).consequences_container_height = -20
    ∧ max (setupContext diagramTwoCauses).causes_container_height
        (setupContext diagramTwoCauses).consequences_container_height
        = (setupContext diagramTwoCauses).causes_container_height
    ∧ (setupContext diagramTwoCauses).canvas_height =
        ((setupContext diagramTwoCauses).causes_container_height
          + calculate_barriers_height (filter_components diagramTwoCauses ComponentKind.Cause)
          + (-20)) * (11 / 10) + 150 :=
  C4_zero_consequence_lane diagramTwoCauses (by decide) (by decide)

/-- The x field of a slope point is the requested abscissa. -/
theorem get_slope_point_x (a b : Vector2) (x : ℚ) : (get_slope_point a b x).x = x := rfl

/-- The inner box edge's x coordinate does not depend on the component
index (only its y does). -/
theorem edge_x_const (kind : ComponentKind) (j : ℕ) (ctx : Context) :
    (get_component_edge kind j ctx).x = (get_component_edge kind 0 ctx).x := by
  cases kind <;> rfl

/-- When the run is non-zero, the slope point lies on the line through `a`
and `b` (division-free form of `y = y0 + slope · (x − x0)`). -/
theorem get_slope_point_collinear (a b : Vector2) (x : ℚ) (h : b.x - a.x ≠ 0) :
    ((get_slope_point a b x).y - a.y) * (b.x - a.x) = (b.y - a.y) * (x - a.x) := by
  simp only [get_slope_point]
  field_simp
  ring

/-- C6: every rectangle drawn by `render_barriers` (these are exactly the
interception rectangles) is centred at some slot's assigned x coordinate
and, provided the lane's connectors are not vertical, lies on the connector
line of a component that references that slot's barrier: its centre
satisfies the division-free linear-interpolation equation of the line from
the component's inner box edge to the lane's circle point. -/
theorem C6_interception_on_connector (components : List Component) (circle_point : Vector2)
    (kind : ComponentKind) (id_offset : ℕ) (ctx : Context)
    (order : List (List Char × ℕ)) (r : Rectangle)
    (hrun : circle_point.x ≠ (get_component_edge kind 0 ctx).x)
    (hmem : DrawOp.drawRectangle r
      ∈ render_barriers components circle_point kind id_offset ctx order) :
    ∃ i j : ℕ, i < (get_barrier_frequencies order).length ∧ j < components.length
      ∧ ((components.getD j cdefault).barriers.contains
          (((get_barrier_frequencies order).map Prod.fst).getD i []) = true)
      ∧ r.centre.x = get_barrier_x_center (i : ℚ) kind ctx
      ∧ (r.centre.y - (get_component_edge kind j ctx).y)
          * (circle_point.x - (get_component_edge kind j ctx).x)
        = (circle_point.y - (get_component_edge kind j ctx).y)
          * (r.centre.x - (get_component_edge kind j ctx).x) := by
  unfold render_barriers at hmem
  rw [List.mem_flatten] at hmem
  obtain ⟨blk, hblk, hr⟩ := hmem
  rw [List.mem_map] at hblk
  obtain ⟨i, hi, rfl⟩ := hblk
  rw [List.mem_range, List.length_map] at hi
  unfold barrier_slot_ops at hr
  rw [List.mem_append] at hr
  rcases hr with hr | hr
  · simp at hr
  rw [List.mem_map] at hr
  obtain ⟨j, hj, heq⟩ := hr
  rw [List.mem_filter, List.mem_range] at hj
  obtain ⟨hjlt, hjbar⟩ := hj
  refine ⟨i, j, hi, hjlt, hjbar, ?_, ?_⟩
  · cases heq
    rfl
  · cases heq
    have hne : circle_point.x - (get_component_edge kind j ctx).x ≠ 0 := by
      rw [edge_x_const kind j ctx]
      exact sub_ne_zero_of_ne hrun
    exact get_slope_point_collinear (get_component_edge kind j ctx) circle_point _ hne

/-- Witness for C6: the interception rectangle of `diagramSmall`'s cause
lane. -/
theorem C6_interception_on_connector_witness :
    ∃ i j : ℕ,
      i < (get_barrier_frequencies (laneAssoc diagramSmall ComponentKind.Cause)).length
      ∧ j < (filter_components diagramSmall ComponentKind.Cause).length
      ∧ (((filter_components diagramSmall ComponentKind.Cause).getD j cdefault).barriers.contains
          (((get_barrier_frequencies (laneAssoc diagramSmall ComponentKind.Cause)).map
            Prod.fst).getD i []) = true)
      ∧ rectSmall.centre.x
          = get_barrier_x_center (i : ℚ) ComponentKind.Cause (renderContext diagramSmall)
      ∧ (rectSmall.centre.y
            - (get_component_edge ComponentKind.Cause j (renderContext diagramSmall)).y)
          * ((get_component_circle_point ComponentKind.Cause (renderContext diagramSmall)).x
            - (get_component_edge ComponentKind.Cause j (renderContext diagramSmall)).x)
        = ((get_component_circle_point ComponentKind.Cause (renderContext diagramSmall)).y
            - (get_component_edge ComponentKind.Cause j (renderContext diagramSmall)).y)
          * (rectSmall.centre.x
            - (get_component_edge ComponentKind.Cause j (renderContext diagramSmall)).x) :=
  C6_interception_on_connector (filter_components diagramSmall ComponentKind.Cause)
    (get_component_circle_point ComponentKind.Cause (renderContext diagramSmall))
    ComponentKind.Cause 0 (renderContext diagramSmall)
    (laneAssoc diagramSmall ComponentKind.Cause) rectSmall
    (of_decide_eq_true (by with_unfolding_all rfl))
    (of_decide_eq_true (by with_unfolding_all rfl))

/-- The container-height formula is monotone in the count. -/
theorem by_count_mono (a b : ℚ) (h : a ≤ b) :
    calculate_components_container_height_by_count a
      ≤ calculate_components_container_height_by_count b := by
  simp only [calculate_components_container_height_by_count, COMPONENT_HEIGHT,
    COMPONENT_MARGIN_BOTTOM]
  linarith

/-- The barrier-container width is monotone in the barrier count. -/
theorem bcw_mono (a b : List (List Char)) (h : a.length ≤ b.length) :
    calculate_barriers_container_width a ≤ calculate_barriers_container_width b := by
  simp only [calculate_barriers_container_width, BARRIER_WIDTH, BARRIER_MARGIN_RIGHT,
    BARRIERS_CONTAINER_HORIZONTAL_PADDING]
  have hc : (a.length : ℚ) ≤ (b.length : ℚ) := Nat.cast_le.mpr h
  linarith

/-- C7: with both lanes' component counts fixed, canvas width and canvas
height are non-decreasing when the event-label length, the shared maximum
component-box width (the longest name's width) and either lane's
distinct-barrier count do not decrease. -/
theorem C7_canvas_monotone (d d' : Diagram)
    (he : d.event.length ≤ d'.event.length)
    (hm : calculate_max_components_box_width (filter_components d ComponentKind.Cause)
        (filter_components d ComponentKind.Consequence)
      ≤ calculate_max_components_box_width (filter_components d' ComponentKind.Cause)
        (filter_components d' ComponentKind.Consequence))
    (hbc : (filter_barriers (filter_components d ComponentKind.Cause)).length
      ≤ (filter_barriers (filter_components d' ComponentKind.Cause)).length)
    (hbs : (filter_barriers (filter_components d ComponentKind.Consequence)).length
      ≤ (filter_barriers (filter_components d' ComponentKind.Consequence)).length)
    (hnc : (filter_components d ComponentKind.Cause).length
      = (filter_components d' ComponentKind.Cause).length)
    (hns : (filter_components d ComponentKind.Consequence).length
      = (filter_components d' ComponentKind.Consequence).length) :
    (setupContext d).canvas_width ≤ (setupContext d').canvas_width
    ∧ (setupContext d).canvas_height ≤ (setupContext d').canvas_height := by
  have hr : calculate_event_circle_radius d.event ≤ calculate_event_circle_radius d'.event := by
    simp only [calculate_event_circle_radius, text_width]
    have hc : (d.event.length : ℚ) ≤ (d'.event.length : ℚ) := Nat.cast_le.mpr he
    linarith
  have hbw : calculate_max_barriers_container_width
      (filter_barriers (filter_components d ComponentKind.Cause))
      (filter_barriers (filter_components d ComponentKind.Consequence))
    ≤ calculate_max_barriers_container_width
      (filter_barriers (filter_components d' ComponentKind.Cause))
      (filter_barriers (filter_components d' ComponentKind.Consequence)) := by
    exact max_le_max (bcw_mono _ _ hbc) (bcw_mono _ _ hbs)
  have hch : calculate_components_container_height (filter_components d ComponentKind.Cause)
      = calculate_components_container_height (filter_components d' ComponentKind.Cause) := by
    unfold calculate_components_container_height
    rw [hnc]
  have hsh : calculate_components_container_height (filter_components d ComponentKind.Consequence)
      = calculate_components_container_height (filter_components d' ComponentKind.Consequence) := by
    unfold calculate_components_container_height
    rw [hns]
  have hbhc : calculate_barriers_height (filter_components d ComponentKind.Cause)
      ≤ calculate_barriers_height (filter_components d' ComponentKind.Cause) := by
    unfold calculate_barriers_height
    exact by_count_mono _ _ (Nat.cast_le.mpr hbc)
  have hbhs : calculate_barriers_height (filter_components d ComponentKind.Consequence)
      ≤ calculate_barriers_height (filter_components d' ComponentKind.Consequence) := by
    unfold calculate_barriers_height
    exact by_count_mono _ _ (Nat.cast_le.mpr hbs)
  constructor
  · simp only [setupContext, setup_canvas, calculate_canvas_width]
    linarith
  · simp only [setupContext, setup_canvas]
    rw [hch, hsh]
    have hsum : max (calculate_components_container_height (filter_components d' ComponentKind.Cause))
        (calculate_components_container_height (filter_components d' ComponentKind.Consequence))
        + (calculate_barriers_height (filter_components d ComponentKind.Cause)
          + calculate_barriers_height (filter_components d ComponentKind.Consequence))
      ≤ max (calculate_components_container_height (filter_components d' ComponentKind.Cause))
        (calculate_components_container_height (filter_components d' ComponentKind.Consequence))
        + (calculate_barriers_height (filter_components d' ComponentKind.Cause)
          + calculate_barriers_height (filter_components d' ComponentKind.Consequence)) := by
      linarith
    linarith [mul_le_mul_of_nonneg_right hsum (by norm_num : (0:ℚ) ≤ 11 / 10)]

/-- Witness for C7: `diagramLarger` increases the event length, the longest
component name and both lanes' distinct-barrier counts over
`diagramSmall` while keeping the component counts. -/
theorem C7_canvas_monotone_witness :
    (setupContext diagramSmall).canvas_width ≤ (setupContext diagramLarger).canvas_width
    ∧ (setupContext diagramSmall).canvas_height ≤ (setupContext diagramLarger).canvas_height :=
  C7_canvas_monotone diagramSmall diagramLarger (by decide)
    (of_decide_eq_true (by with_unfolding_all rfl))
    (by decide) (by decide) (by decide) (by decide)


/-- A barrier line changes no component's name or kind, so it changes no
(kind, name) count. -/
theorem applyBarrierLine_componentCount (d : Diagram) (v : List Char)
    (k : ComponentKind) (n : List Char) :
    componentCount (applyBarrierLine d v) k n = componentCount d k n := by
  unfold applyBarrierLine componentCount
  cases hs : splitOnce ':' v with
  | none => rfl
  | some p =>
    obtain ⟨bn, cn⟩ := p
    simp only [List.countP_map]
    apply List.countP_congr
    intro c _
    simp only [Function.comp]
    split <;> rfl

/-- Appending a fresh component (guarded by the source's `any` check)
either leaves a (kind, name) count unchanged or raises it from 0 to 1. -/
theorem appended_componentCount (d : Diagram) (value : List Char) (kc : ComponentKind)
    (k : ComponentKind) (n : List Char)
    (hany : ¬ (d.components.any fun c => c.name == value && c.kind == kc) = true) :
    componentCount { d with components := d.components ++ [⟨value, [], kc⟩] } k n
      = componentCount d k n
    ∨ (componentCount d k n = 0
        ∧ componentCount { d with components := d.components ++ [⟨value, [], kc⟩] } k n = 1) := by
  by_cases hm : n = value ∧ k = kc
  · obtain ⟨hn, hk⟩ := hm
    subst hn
    subst hk
    right
    have hz : componentCount d k n = 0 := by
      rw [componentCount, List.countP_eq_zero]
      intro c hc
      rw [List.any_eq_true] at hany
      push_neg at hany
      exact fun hb => hany c hc hb
    refine ⟨hz, ?_⟩
    rw [componentCount, List.countP_append]
    rw [componentCount] at hz
    rw [hz]
    simp
  · left
    rw [componentCount, componentCount, List.countP_append]
    have h0 : List.countP (fun c => c.name == n && c.kind == k) [(⟨value, [], kc⟩ : Component)] = 0 := by
      simp only [List.countP_cons, List.countP_nil]
      have : ¬((value == n) = true ∧ (kc == k) = true) := by
        intro ⟨ha, hb⟩
        rw [beq_iff_eq] at ha hb
        exact hm ⟨ha.symm, hb.symm⟩
      simp only [Bool.and_eq_true]
      split
      · exact absurd (by assumption) this
      · rfl
    rw [h0]
    omega

/-- One parser step either preserves a (kind, name) count or raises it
from 0 to 1: no step can create a duplicate. -/
theorem parseLine_componentCount (d : Diagram) (line : List Char)
    (k : ComponentKind) (n : List Char) :
    componentCount (parseLine d line) k n = componentCount d k n
    ∨ (componentCount d k n = 0 ∧ componentCount (parseLine d line) k n = 1) := by
  unfold parseLine
  cases hs : splitOnce ' ' line with
  | none => exact Or.inl rfl
  | some p =>
    obtain ⟨command, rawValue⟩ := p
    simp only
    split_ifs with h1 h2 h2a h3 h3a h4 h5
    · exact Or.inl rfl
    · exact Or.inl rfl
    · exact appended_componentCount d (trim rawValue) ComponentKind.Cause k n h2a
    · exact Or.inl rfl
    · exact appended_componentCount d (trim rawValue) ComponentKind.Consequence k n h3a
    · exact Or.inl rfl
    · exact Or.inl (applyBarrierLine_componentCount d (trim rawValue) k n)
    · exact Or.inl rfl

/-- A parser step preserves the at-most-one invariant. -/
theorem parseLine_count_le_one (d : Diagram) (line : List Char) (k : ComponentKind)
    (n : List Char) (h : componentCount d k n ≤ 1) :
    componentCount (parseLine d line) k n ≤ 1 := by
  rcases parseLine_componentCount d line k n with h1 | ⟨h0, h1⟩ <;> omega

/-- A parser step never removes a component. -/
theorem parseLine_count_pos (d : Diagram) (line : List Char) (k : ComponentKind)
    (n : List Char) (h : 0 < componentCount d k n) :
    0 < componentCount (parseLine d line) k n := by
  rcases parseLine_componentCount d line k n with h1 | ⟨h0, h1⟩ <;> omega

/-- The at-most-one invariant is preserved by any run of lines. -/
theorem foldl_count_le_one (ls : List (List Char)) (d : Diagram) (k : ComponentKind)
    (n : List Char) (h : componentCount d k n ≤ 1) :
    componentCount (ls.foldl parseLine d) k n ≤ 1 := by
  induction ls generalizing d with
  | nil => exact h
  | cons l ls ih => exact ih _ (parseLine_count_le_one _ _ _ _ h)

/-- Presence of a component is preserved by any run of lines. -/
theorem foldl_count_pos (ls : List (List Char)) (d : Diagram) (k : ComponentKind)
    (n : List Char) (h : 0 < componentCount d k n) :
    0 < componentCount (ls.foldl parseLine d) k n := by
  induction ls generalizing d with
  | nil => exact h
  | cons l ls ih => exact ih _ (parseLine_count_pos _ _ _ _ h)

/-- After a `cause v` line, a Cause component named `trim v` exists. -/
theorem causeLine_count_pos (d : Diagram) (v : List Char) :
    0 < componentCount (parseLine d (causeLine v)) ComponentKind.Cause (trim v) := by
  have hsplit : splitOnce ' ' (causeLine v) = some (("cause".toList), v) := rfl
  unfold parseLine
  rw [hsplit]
  simp only
  rw [if_neg (by decide)]
  rw [if_pos trivial]
  split_ifs with h
  · rw [List.any_eq_true] at h
    obtain ⟨c, hc, hb⟩ := h
    rw [componentCount, List.countP_pos_iff]
    exact ⟨c, hc, hb⟩
  · rw [componentCount, List.countP_append]
    simp

/-- After a `consequence v` line, a Consequence component named `trim v`
exists. -/
theorem consequenceLine_count_pos (d : Diagram) (v : List Char) :
    0 < componentCount (parseLine d (consequenceLine v)) ComponentKind.Consequence (trim v) := by
  have hsplit : splitOnce ' ' (consequenceLine v) = some (("consequence".toList), v) := rfl
  unfold parseLine
  rw [hsplit]
  simp only
  rw [if_neg (by decide), if_neg (by decide)]
  rw [if_pos trivial]
  split_ifs with h
  · rw [List.any_eq_true] at h
    obtain ⟨c, hc, hb⟩ := h
    rw [componentCount, List.countP_pos_iff]
    exact ⟨c, hc, hb⟩
  · rw [componentCount, List.countP_append]
    simp

/-- C8: an input whose lines declare the same cause value `v` twice (and an
input whose lines declare the same consequence value `w` twice) yields
exactly one component of that kind with the trimmed name: the second
declaration is a no-op and no other line can duplicate or remove it. -/
theorem C8_duplicate_declaration_idempotent (input input' : List Char)
    (pre mid post pre' mid' post' : List (List Char)) (v w : List Char)
    (h : rustLines input = pre ++ causeLine v :: mid ++ causeLine v :: post)
    (h' : rustLines input' = pre' ++ consequenceLine w :: mid' ++ consequenceLine w :: post') :
    componentCount (parse_diagram input) ComponentKind.Cause (trim v) = 1
    ∧ componentCount (parse_diagram input') ComponentKind.Consequence (trim w) = 1 := by
  constructor
  · rw [parse_diagram, h, List.foldl_append, List.foldl_cons, List.foldl_append, List.foldl_cons]
    have h0 : componentCount (List.foldl parseLine ⟨[], [], []⟩ pre)
        ComponentKind.Cause (trim v) ≤ 1 :=
      foldl_count_le_one _ _ _ _ (by simp [componentCount])
    have h1pos := causeLine_count_pos (List.foldl parseLine ⟨[], [], []⟩ pre) v
    have h1le := parseLine_count_le_one (List.foldl parseLine ⟨[], [], []⟩ pre)
      (causeLine v) ComponentKind.Cause (trim v) h0
    have h2pos := foldl_count_pos mid _ ComponentKind.Cause (trim v) h1pos
    have h2le := foldl_count_le_one mid _ ComponentKind.Cause (trim v) h1le
    have h3pos := parseLine_count_pos _ (causeLine v) ComponentKind.Cause (trim v) h2pos
    have h3le := parseLine_count_le_one _ (causeLine v) ComponentKind.Cause (trim v) h2le
    have h4pos := foldl_count_pos post _ ComponentKind.Cause (trim v) h3pos
    have h4le := foldl_count_le_one post _ ComponentKind.Cause (trim v) h3le
    omega
  · rw [parse_diagram, h', List.foldl_append, List.foldl_cons, List.foldl_append, List.foldl_cons]
    have h0 : componentCount (List.foldl parseLine ⟨[], [], []⟩ pre')
        ComponentKind.Consequence (trim w) ≤ 1 :=
      foldl_count_le_one _ _ _ _ (by simp [componentCount])
    have h1pos := consequenceLine_count_pos (List.foldl parseLine ⟨[], [], []⟩ pre') w
    have h1le := parseLine_count_le_one (List.foldl parseLine ⟨[], [], []⟩ pre')
      (consequenceLine w) ComponentKind.Consequence (trim w) h0
    have h2pos := foldl_count_pos mid' _ ComponentKind.Consequence (trim w) h1pos
    have h2le := foldl_count_le_one mid' _ ComponentKind.Consequence (trim w) h1le
    have h3pos := parseLine_count_pos _ (consequenceLine w) ComponentKind.Consequence (trim w) h2pos
    have h3le := parseLine_count_le_one _ (consequenceLine w) ComponentKind.Consequence (trim w) h2le
    have h4pos := foldl_count_pos post' _ ComponentKind.Consequence (trim w) h3pos
    have h4le := foldl_count_le_one post' _ ComponentKind.Consequence (trim w) h3le
    omega

/-- Witness for C8: `cause A` declared twice, `consequence B` declared
twice. -/
theorem C8_duplicate_declaration_idempotent_witness :
    componentCount (parse_diagram (("cause A\ncause A").toList))
      ComponentKind.Cause (trim ("A".toList)) = 1
    ∧ componentCount (parse_diagram (("consequence B\nconsequence B").toList))
      ComponentKind.Consequence (trim ("B".toList)) = 1 :=
  C8_duplicate_declaration_idempotent (("cause A\ncause A").toList)
    (("consequence B\nconsequence B").toList)
    [] [] [] [] [] [] ("A".toList) ("B".toList) (by decide) (by decide)


/-- Dropping a prefix twice drops it once. -/
theorem dropWhile_idem (p : Char → Bool) (l : List Char) :
    (l.dropWhile p).dropWhile p = l.dropWhile p := by
  induction l with
  | nil => rfl
  | cons c cs ih =>
    by_cases h : p c
    · simp [List.dropWhile_cons, h, ih]
    · simp [List.dropWhile_cons, h]

/-- `trim_start` is idempotent. -/
theorem trimStart_idem (s : List Char) : trimStart (trimStart s) = trimStart s :=
  dropWhile_idem isRustWhitespace s

/-- `trim_end` is idempotent. -/
theorem trimEnd_idem (s : List Char) : trimEnd (trimEnd s) = trimEnd s := by
  unfold trimEnd
  rw [List.reverse_reverse, dropWhile_idem]

/-- Trimming after `trim_start` is just trimming. -/
theorem trim_trimStart (s : List Char) : trim (trimStart s) = trim s := by
  unfold trim
  rw [trimStart_idem]

/-- `dropWhile` stops no later than an element the predicate rejects. -/
theorem dropWhile_append_not (p : Char → Bool) (xs ys : List Char) (y : Char)
    (hy : p y = false) :
    List.dropWhile p (xs ++ y :: ys) = List.dropWhile p xs ++ y :: ys := by
  rw [List.dropWhile_append]
  split
  · next h =>
    rw [List.isEmpty_iff] at h
    rw [h, List.dropWhile_cons, hy]
    simp
  · rfl

/-- Leading-whitespace removal cannot cross a colon. -/
theorem trimStart_append_colon (bn rest : List Char) :
    trimStart (bn ++ ':' :: rest) = trimStart bn ++ ':' :: rest :=
  dropWhile_append_not isRustWhitespace bn rest ':' (by decide)

/-- Trailing-whitespace removal cannot cross a colon. -/
theorem trimEnd_append_colon (xs rest : List Char) :
    trimEnd (xs ++ ':' :: rest) = xs ++ ':' :: trimEnd rest := by
  unfold trimEnd
  rw [List.reverse_append]
  have h1 : (':' :: rest).reverse = rest.reverse ++ [':'] := by simp
  rw [h1, List.append_assoc, List.singleton_append]
  rw [dropWhile_append_not isRustWhitespace rest.reverse xs.reverse ':' (by decide)]
  simp

/-- Trimming a string with a colon inside trims each side up to the
colon. -/
theorem trim_append_colon (bn rest : List Char) :
    trim (bn ++ ':' :: rest) = trimStart bn ++ ':' :: trimEnd rest := by
  unfold trim
  rw [trimStart_append_colon, trimEnd_append_colon]

/-- `split_once` splits at the first separator occurrence. -/
theorem splitOnce_append (sep : Char) (xs ys : List Char) (hx : sep ∉ xs) :
    splitOnce sep (xs ++ sep :: ys) = some (xs, ys) := by
  induction xs with
  | nil => simp [splitOnce]
  | cons c cs ih =>
    have hc : ¬ c = sep := fun h => hx (h ▸ List.mem_cons_self c cs)
    have hcs : sep ∉ cs := fun h => hx (List.mem_cons_of_mem c h)
    simp only [List.cons_append, splitOnce, if_neg hc]
    rw [show splitOnce sep (cs.append (sep :: ys)) = some (cs, ys) from ih hcs]

/-- Unfolding `trim_end` over a head element. -/
theorem trimEnd_cons (c : Char) (s : List Char) :
    trimEnd (c :: s) = if (trimEnd s).isEmpty = true
      then (if isRustWhitespace c then [] else [c])
      else c :: trimEnd s := by
  unfold trimEnd
  rw [show (c :: s).reverse = s.reverse ++ [c] by simp]
  rw [List.dropWhile_append]
  by_cases h : (List.dropWhile isRustWhitespace s.reverse).isEmpty = true
  · rw [if_pos h, if_pos (by simpa using h)]
    by_cases hc : isRustWhitespace c
    · simp [List.dropWhile_cons, hc]
    · simp [List.dropWhile_cons, hc]
  · rw [if_neg h, if_neg (by simpa using h)]
    simp

/-- Removing leading and trailing whitespace commutes. -/
theorem trimStart_trimEnd_comm (s : List Char) :
    trimStart (trimEnd s) = trimEnd (trimStart s) := by
  induction s with
  | nil => rfl
  | cons c cs ih =>
    by_cases h : isRustWhitespace c
    · rw [trimEnd_cons]
      by_cases he : (trimEnd cs).isEmpty = true
      · rw [if_pos he, if_pos h]
        rw [show trimStart (c :: cs) = trimStart cs by simp [trimStart, List.dropWhile_cons, h]]
        rw [← ih]
        rw [List.isEmpty_iff] at he
        rw [he]
      · rw [if_neg he]
        rw [show trimStart (c :: trimEnd cs) = trimStart (trimEnd cs) by
          simp [trimStart, List.dropWhile_cons, h]]
        rw [ih]
        rw [show trimStart (c :: cs) = trimStart cs by simp [trimStart, List.dropWhile_cons, h]]
    · rw [show trimStart (c :: cs) = c :: cs by simp [trimStart, List.dropWhile_cons, h]]
      rw [trimEnd_cons]
      by_cases he : (trimEnd cs).isEmpty = true
      · rw [if_pos he, if_neg h]
        simp [trimStart, List.dropWhile_cons, h, trimEnd_cons, he]
      · rw [if_neg he]
        simp [trimStart, List.dropWhile_cons, h, trimEnd_cons, he]

/-- Trimming after `trim_end` is just trimming. -/
theorem trim_trimEnd (s : List Char) : trim (trimEnd s) = trim s := by
  unfold trim
  rw [trimStart_trimEnd_comm, trimEnd_idem]

/-- C9: a `barrier bn: rest` line (colon-free barrier name) keeps the
diagram's title and event, and maps each component to itself unless the
component's name equals one of the comma-separated trimmed targets — of
either kind — in which case exactly one copy of the trimmed barrier name
is appended to its barrier list; unmatched targets have no effect. -/
theorem C9_barrier_line_frame (d : Diagram) (bn rest : List Char) (hb : ':' ∉ bn) :
    (parseLine d (("barrier ".toList) ++ bn ++ ':' :: rest)).title = d.title
    ∧ (parseLine d (("barrier ".toList) ++ bn ++ ':' :: rest)).event = d.event
    ∧ (parseLine d (("barrier ".toList) ++ bn ++ ':' :: rest)).components
      = d.components.map fun c =>
          if ((splitChar ',' (trim rest)).map trim).contains c.name then
            { c with barriers := c.barriers ++ [trim bn] }
          else c := by
  have hsplit : splitOnce ' ' (("barrier ".toList) ++ bn ++ ':' :: rest)
      = some (("barrier".toList), bn ++ ':' :: rest) := rfl
  have hmem : ':' ∉ trimStart bn := by
    intro hin
    exact hb ((List.dropWhile_sublist isRustWhitespace).mem hin)
  have hsplit2 : splitOnce ':' (trim (bn ++ ':' :: rest))
      = some (trimStart bn, trimEnd rest) := by
    rw [trim_append_colon]
    exact splitOnce_append ':' (trimStart bn) (trimEnd rest) hmem
  unfold parseLine
  rw [hsplit]
  simp only
  rw [if_neg (by decide), if_neg (by decide), if_neg (by decide), if_neg (by decide)]
  rw [if_pos trivial]
  unfold applyBarrierLine
  rw [hsplit2]
  simp only
  refine ⟨trivial, trivial, ?_⟩
  apply List.map_congr_left
  intro c _
  have hcond : ((splitChar ',' (trim (trimEnd rest))).any fun nm => c.name == trim nm)
      = ((splitChar ',' (trim rest)).map trim).contains c.name := by
    rw [trim_trimEnd]
    rw [Bool.eq_iff_iff]
    simp only [List.any_eq_true, List.contains_eq_any_beq, List.mem_map, beq_iff_eq]
    constructor
    · rintro ⟨nm, hnm, heq⟩
      exact ⟨trim nm, ⟨nm, hnm, rfl⟩, heq⟩
    · rintro ⟨t, ⟨nm, hnm, rfl⟩, heq⟩
      exact ⟨nm, hnm, heq⟩
  rw [hcond, trim_trimStart]

/-- Trimming an all-whitespace string yields the empty string. -/
theorem trim_eq_nil_of_ws (ws : List Char) (hws : ∀ c ∈ ws, isRustWhitespace c = true) :
    trim ws = [] := by
  have h1 : trimStart ws = [] := by
    rw [trimStart, List.dropWhile_eq_nil_iff]
    exact hws
  rw [trim, h1]
  rfl

/-- `split_once` finds nothing without an occurrence of the separator. -/
theorem splitOnce_eq_none (sep : Char) (line : List Char) (h : sep ∉ line) :
    splitOnce sep line = none := by
  induction line with
  | nil => rfl
  | cons c cs ih =>
    have hc : ¬ c = sep := fun hh => h (hh ▸ List.mem_cons_self c cs)
    have hcs : sep ∉ cs := fun hh => h (List.mem_cons_of_mem c hh)
    simp only [splitOnce, if_neg hc, ih hcs]

/-- C10: a command word followed by a space and only whitespace is not
skipped: `cause `/`consequence ` create an empty-named component on first
occurrence, `title `/`event ` set the empty string — while a line with no
space at all leaves the diagram untouched. -/
theorem C10_whitespace_only_value (d : Diagram) (ws line : List Char)
    (hws : ∀ c ∈ ws, isRustWhitespace c = true)
    (hcause : componentCount d ComponentKind.Cause [] = 0)
    (hcons : componentCount d ComponentKind.Consequence [] = 0)
    (hline : ' ' ∉ line) :
    (parseLine d (("cause ".toList) ++ ws)).components
        = d.components ++ [⟨[], [], ComponentKind.Cause⟩]
    ∧ (parseLine d (("consequence ".toList) ++ ws)).components
        = d.components ++ [⟨[], [], ComponentKind.Consequence⟩]
    ∧ (parseLine d (("title ".toList) ++ ws)).title = []
    ∧ (parseLine d (("event ".toList) ++ ws)).event = []
    ∧ parseLine d line = d := by
  have htrim : trim ws = [] := trim_eq_nil_of_ws ws hws
  have hanyc : ¬ (d.components.any fun c =>
      c.name == trim ws && c.kind == ComponentKind.Cause) = true := by
    rw [htrim]
    intro hh
    rw [List.any_eq_true] at hh
    obtain ⟨c, hc, hcb⟩ := hh
    rw [componentCount, List.countP_eq_zero] at hcause
    exact hcause c hc hcb
  have hanys : ¬ (d.components.any fun c =>
      c.name == trim ws && c.kind == ComponentKind.Consequence) = true := by
    rw [htrim]
    intro hh
    rw [List.any_eq_true] at hh
    obtain ⟨c, hc, hcb⟩ := hh
    rw [componentCount, List.countP_eq_zero] at hcons
    exact hcons c hc hcb
  refine ⟨?_, ?_, ?_, ?_, ?_⟩
  · have hsplit : splitOnce ' ' (("cause ".toList) ++ ws) = some (("cause".toList), ws) := rfl
    unfold parseLine
    rw [hsplit]
    simp only
    rw [if_neg (by decide)]
    rw [if_pos trivial]
    rw [if_neg hanyc, htrim]
  · have hsplit : splitOnce ' ' (("consequence ".toList) ++ ws)
        = some (("consequence".toList), ws) := rfl
    unfold parseLine
    rw [hsplit]
    simp only
    rw [if_neg (by decide), if_neg (by decide)]
    rw [if_pos trivial]
    rw [if_neg hanys, htrim]
  · have hsplit : splitOnce ' ' (("title ".toList) ++ ws) = some (("title".toList), ws) := rfl
    unfold parseLine
    rw [hsplit]
    simp only
    rw [if_pos trivial]
    exact htrim
  · have hsplit : splitOnce ' ' (("event ".toList) ++ ws) = some (("event".toList), ws) := rfl
    unfold parseLine
    rw [hsplit]
    simp only
    rw [if_neg (by decide), if_neg (by decide), if_neg (by decide)]
    rw [if_pos trivial]
    exact htrim
  · unfold parseLine
    rw [splitOnce_eq_none ' ' line hline]

/-- Witness for C9: `barrier B:  c1, zz` applied to `diagramTie` (barrier
B lands on component c1; target zz matches nothing). -/
theorem C9_barrier_line_frame_witness :
    (parseLine diagramTie (("barrier ".toList) ++ ("B".toList) ++ ':' :: ((" c1, zz".toList)))).title
        = diagramTie.title
    ∧ (parseLine diagramTie (("barrier ".toList) ++ ("B".toList) ++ ':' :: ((" c1, zz".toList)))).event
        = diagramTie.event
    ∧ (parseLine diagramTie (("barrier ".toList) ++ ("B".toList) ++ ':' :: ((" c1, zz".toList)))).components
        = diagramTie.components.map fun c =>
            if ((splitChar ',' (trim ((" c1, zz".toList)))).map trim).contains c.name then
              { c with barriers := c.barriers ++ [trim ("B".toList)] }
            else c :=
  C9_barrier_line_frame diagramTie ("B".toList) ((" c1, zz".toList)) (by decide)

/-- Witness for C10: the empty diagram, a single-space value and the line
`nospace`. -/
theorem C10_whitespace_only_value_witness :
    (parseLine ⟨[], [], []⟩ (("cause ".toList) ++ [' '])).components
        = (⟨[], [], []⟩ : Diagram).components ++ [⟨[], [], ComponentKind.Cause⟩]
    ∧ (parseLine ⟨[], [], []⟩ (("consequence ".toList) ++ [' '])).components
        = (⟨[], [], []⟩ : Diagram).components ++ [⟨[], [], ComponentKind.Consequence⟩]
    ∧ (parseLine ⟨[], [], []⟩ (("title ".toList) ++ [' '])).title = []
    ∧ (parseLine ⟨[], [], []⟩ (("event ".toList) ++ [' '])).event = []
    ∧ parseLine ⟨[], [], []⟩ ("nospace".toList) = ⟨[], [], []⟩ :=
  C10_whitespace_only_value ⟨[], [], []⟩ [' '] ("nospace".toList)
    (by decide) (by decide) (by decide) (by decide)


/-- Insertion permutes. -/
theorem insertByFreqDesc_perm (x : List Char × ℕ) (l : List (List Char × ℕ)) :
    (insertByFreqDesc x l).Perm (x :: l) := by
  induction l with
  | nil => exact List.Perm.refl _
  | cons y ys ih =>
    rw [insertByFreqDesc]
    split
    · exact List.Perm.refl _
    · exact (ih.cons y).trans (List.Perm.swap x y ys)

/-- The sort is a permutation of its input. -/
theorem sortByFreqDesc_perm (l : List (List Char × ℕ)) : (sortByFreqDesc l).Perm l := by
  induction l with
  | nil => exact List.Perm.refl _
  | cons x xs ih =>
    rw [sortByFreqDesc, List.foldr_cons]
    exact (insertByFreqDesc_perm x _).trans (ih.cons x)

/-- Insertion preserves descending-count sortedness. -/
theorem insertByFreqDesc_sorted (x : List Char × ℕ) (l : List (List Char × ℕ))
    (h : SortedFreqDesc l) : SortedFreqDesc (insertByFreqDesc x l) := by
  induction l with
  | nil => exact List.pairwise_singleton _ _
  | cons y ys ih =>
    obtain ⟨hy, hys⟩ := List.pairwise_cons.mp h
    rw [insertByFreqDesc]
    split
    · next hle =>
      refine List.pairwise_cons.mpr ⟨?_, List.pairwise_cons.mpr ⟨hy, hys⟩⟩
      intro z hz
      rcases List.mem_cons.mp hz with hz | hz
      · exact hz ▸ hle
      · exact le_trans (hy z hz) hle
    · next hgt =>
      push_neg at hgt
      refine List.pairwise_cons.mpr ⟨?_, ih hys⟩
      intro z hz
      have hz' : z ∈ x :: ys := (insertByFreqDesc_perm x ys).mem_iff.mp hz
      rcases List.mem_cons.mp hz' with hz' | hz'
      · exact hz' ▸ le_of_lt hgt
      · exact hy z hz'

/-- The sort's output is sorted by descending count. -/
theorem sortByFreqDesc_sorted (l : List (List Char × ℕ)) :
    SortedFreqDesc (sortByFreqDesc l) := by
  induction l with
  | nil => exact List.Pairwise.nil
  | cons x xs ih =>
    rw [sortByFreqDesc, List.foldr_cons]
    exact insertByFreqDesc_sorted x _ ih

/-- Two descending-sorted permutations of each other with pairwise
distinct counts are equal: without ties the sorted order is unique. -/
theorem eq_of_perm_sorted_distinct (l1 : List (List Char × ℕ)) :
    ∀ l2 : List (List Char × ℕ), l1.Perm l2 → SortedFreqDesc l1 → SortedFreqDesc l2 →
      l1.Pairwise (fun a b => a.2 ≠ b.2) → l1 = l2 := by
  induction l1 with
  | nil =>
    intro l2 hp _ _ _
    exact List.Perm.nil_eq hp
  | cons a t1 ih =>
    intro l2 hp hs1 hs2 hd
    cases l2 with
    | nil => exact absurd hp.symm.nil_eq (by simp)
    | cons b t2 =>
      obtain ⟨hs1h, hs1t⟩ := List.pairwise_cons.mp hs1
      obtain ⟨hs2h, hs2t⟩ := List.pairwise_cons.mp hs2
      obtain ⟨hdh, hdt⟩ := List.pairwise_cons.mp hd
      have hab : a = b := by
        by_contra hne
        have ha2 : a ∈ t2 := by
          rcases List.mem_cons.mp (hp.mem_iff.mp (List.mem_cons_self a t1)) with h | h
          · exact absurd h hne
          · exact h
        have hb1 : b ∈ t1 := by
          rcases List.mem_cons.mp (hp.mem_iff.mpr (List.mem_cons_self b t2)) with h | h
          · exact absurd h.symm hne
          · exact h
        have h1 : a.2 ≤ b.2 := hs2h a ha2
        have h2 : b.2 ≤ a.2 := hs1h b hb1
        exact hdh b hb1 (le_antisymm h1 h2)
      subst hab
      have htl : t1.Perm t2 := hp.cons_inv
      rw [ih t2 htl hs1t hs2t hdt]

/-- With pairwise distinct frequencies in a lane's map, every iteration
order sorts to the same vector. -/
theorem get_barrier_frequencies_eq_of_distinct (components : List Component)
    (o1 o2 : List (List Char × ℕ)) (h1 : IsEnumOf components o1) (h2 : IsEnumOf components o2)
    (hd : (barrierFreqAssoc components).Pairwise fun a b => a.2 ≠ b.2) :
    get_barrier_frequencies o1 = get_barrier_frequencies o2 := by
  have hp : (sortByFreqDesc o1).Perm (sortByFreqDesc o2) :=
    ((sortByFreqDesc_perm o1).trans (h1.trans h2.symm)).trans (sortByFreqDesc_perm o2).symm
  have hd1 : (sortByFreqDesc o1).Pairwise fun a b => a.2 ≠ b.2 := by
    refine (List.Perm.pairwise_iff ?_ ((sortByFreqDesc_perm o1).trans h1)).mpr hd
    intro a b hab
    exact fun hh => hab hh.symm
  exact eq_of_perm_sorted_distinct (sortByFreqDesc o1) (sortByFreqDesc o2) hp
    (sortByFreqDesc_sorted o1) (sortByFreqDesc_sorted o2) hd1

/-- The trace depends on the iteration orders only through the sorted
frequency vectors. -/
theorem renderOps_eq_of_freq_eq (d : Diagram) (o1c o1s o2c o2s : List (List Char × ℕ))
    (hc : get_barrier_frequencies o1c = get_barrier_frequencies o2c)
    (hs : get_barrier_frequencies o1s = get_barrier_frequencies o2s) :
    renderOps d o1c o1s = renderOps d o2c o2s := by
  have hb : ∀ (comps : List Component) (cp : Vector2) (kind : ComponentKind) (off : ℕ)
      (ctx : Context) (p q : List (List Char × ℕ)),
      get_barrier_frequencies p = get_barrier_frequencies q →
      render_barriers comps cp kind off ctx p = render_barriers comps cp kind off ctx q := by
    intro comps cp kind off ctx p q hpq
    unfold render_barriers
    rw [hpq]
  unfold renderOps
  simp only
  rw [hb _ _ _ _ _ _ _ hc, hb _ _ _ _ _ _ _ hs]

/-- C2, amended: the render pass is a deterministic function of (Diagram,
Renderer, frequency-map iteration order); when each lane's barrier
frequencies are pairwise distinct the trace is moreover independent of the
iteration order, so two runs emit identical sequences.  (With ties the
counterexample shows two runs can differ.) -/
theorem C2_deterministic_iff_no_ties (d : Diagram) (o1c o1s o2c o2s : List (List Char × ℕ))
    (h1c : IsEnumOf (filter_components d ComponentKind.Cause) o1c)
    (h2c : IsEnumOf (filter_components d ComponentKind.Cause) o2c)
    (h1s : IsEnumOf (filter_components d ComponentKind.Consequence) o1s)
    (h2s : IsEnumOf (filter_components d ComponentKind.Consequence) o2s)
    (hdc : (barrierFreqAssoc (filter_components d ComponentKind.Cause)).Pairwise
      fun a b => a.2 ≠ b.2)
    (hds : (barrierFreqAssoc (filter_components d ComponentKind.Consequence)).Pairwise
      fun a b => a.2 ≠ b.2) :
    renderOps d o1c o1s = renderOps d o2c o2s :=
  renderOps_eq_of_freq_eq d o1c o1s o2c o2s
    (get_barrier_frequencies_eq_of_distinct _ o1c o2c h1c h2c hdc)
    (get_barrier_frequencies_eq_of_distinct _ o1s o2s h1s h2s hds)

/-- Insertion keeps the relative order of entries with any fixed count
(stability, elementwise). -/
theorem filter_insertByFreqDesc (x : List Char × ℕ) (m : List (List Char × ℕ)) (f : ℕ) :
    (insertByFreqDesc x m).filter (fun p => p.2 == f)
      = if x.2 = f then x :: m.filter (fun p => p.2 == f)
        else m.filter (fun p => p.2 == f) := by
  induction m with
  | nil =>
    by_cases hf : x.2 = f
    · simp [insertByFreqDesc, List.filter_cons, hf]
    · simp [insertByFreqDesc, List.filter_cons, hf]
  | cons y ys ih =>
    rw [insertByFreqDesc]
    split
    · next hle =>
      by_cases hf : x.2 = f
      · simp [List.filter_cons, hf]
      · simp [List.filter_cons, hf]
    · next hgt =>
      push_neg at hgt
      by_cases hf : x.2 = f
      · have hy : ¬ y.2 = f := by omega
        simp [List.filter_cons, hf, hy, ih]
      · simp [List.filter_cons, hf, ih]

/-- The sort is stable: entries with equal count keep their input order. -/
theorem filter_sortByFreqDesc (l : List (List Char × ℕ)) (f : ℕ) :
    (sortByFreqDesc l).filter (fun p => p.2 == f) = l.filter (fun p => p.2 == f) := by
  induction l with
  | nil => rfl
  | cons x xs ih =>
    rw [sortByFreqDesc, List.foldr_cons, filter_insertByFreqDesc]
    by_cases hf : x.2 = f
    · rw [if_pos hf]
      rw [show List.foldr insertByFreqDesc [] xs = sortByFreqDesc xs from rfl, ih]
      simp [List.filter_cons, hf]
    · rw [if_neg hf]
      rw [show List.foldr insertByFreqDesc [] xs = sortByFreqDesc xs from rfl, ih]
      simp [List.filter_cons, hf]

/-- C3, amended: each lane's slots are the map's entries sorted by
descending occurrence count, stably with respect to the map's iteration
order: equal-count barriers appear in iteration order (which the
counterexample shows need not be first-seen order). -/
theorem C3_descending_with_enumeration_order_ties (components : List Component)
    (order : List (List Char × ℕ)) (h : IsEnumOf components order) :
    SortedFreqDesc (get_barrier_frequencies order)
    ∧ (get_barrier_frequencies order).Perm (barrierFreqAssoc components)
    ∧ ∀ f : ℕ, (get_barrier_frequencies order).filter (fun p => p.2 == f)
        = order.filter (fun p => p.2 == f) :=
  ⟨sortByFreqDesc_sorted order, (sortByFreqDesc_perm order).trans h,
    fun f => filter_sortByFreqDesc order f⟩

/-- Witness for C2's amended theorem: with frequencies 2 and 1 (no tie),
the two opposite iteration orders give identical traces. -/
theorem C2_deterministic_iff_no_ties_witness :
    renderOps diagramFreq orderFreqA [] = renderOps diagramFreq orderFreqB [] :=
  C2_deterministic_iff_no_ties diagramFreq orderFreqA [] orderFreqB []
    (by decide) (by decide) (by decide) (by decide) (by decide) (by decide)

/-- Witness for C3's amended theorem at `compsTie` with the B-first
iteration order. -/
theorem C3_descending_witness :
    SortedFreqDesc (get_barrier_frequencies orderBA)
    ∧ (get_barrier_frequencies orderBA).Perm (barrierFreqAssoc compsTie)
    ∧ ∀ f : ℕ, (get_barrier_frequencies orderBA).filter (fun p => p.2 == f)
        = orderBA.filter (fun p => p.2 == f) :=
  C3_descending_with_enumeration_order_ties compsTie orderBA (by decide)

end Bowtie
